import Mathlib

/-! Verification development for `websocket_server.go` (package `middlewares`)

A shallow embedding of the connection registry, the subscription registry, the
handler table, the read loop of `Handler`, `newConnection`, the family of
`Send*` functions and the `keepAlive` loop, followed by theorems about them.

Modelling conventions

* A Go `map[string]V` field is a `GoMap V`: either the nil map or a list of
  key/value entries.  Reading a nil map yields the zero value, writing to it
  panics, deleting from it does nothing.
* A `*websocket.Conn` is an `Option Conn`; `none` is the nil pointer.  The
  connection registry stores such pointers, so a key may hold nil.
* `time.Time` and `time.Duration` are unbounded integers (nanoseconds); the
  saturation of `Time.Sub` at the ends of the 64-bit range is outside the model.
* A Go `error` is identified with the text its `Error()` method returns.
* Everything the server does to the outside world (transport calls, handler
  invocations, mutex operations, goroutine starts) is appended to `wire`.
* The outside world (clock readings, results of transport calls, inbound
  frames, generated identifiers) is passed in as arguments.
-/

namespace Middlewares

/-! ## Go maps -/

/-- Entries of a non-nil Go map with string keys. -/
abbrev Entries (V : Type) := List (String × V)

namespace Entries

/-- Lookup `m[k]` with the comma-ok result folded into an `Option`. -/
def get {V : Type} (m : Entries V) (k : String) : Option V :=
  match m with
  | [] => none
  | (k', v) :: rest => if k' = k then some v else get rest k

/-- Builtin `delete(m, k)`. -/
def delete {V : Type} (m : Entries V) (k : String) : Entries V :=
  m.filter (fun e => decide (e.1 ≠ k))

/-- Assignment `m[k] = v`: the old entry for `k`, if any, is replaced. -/
def set {V : Type} (m : Entries V) (k : String) (v : V) : Entries V :=
  (k, v) :: delete m k

/-- Number of entries stored under key `k`. -/
def count {V : Type} (m : Entries V) (k : String) : Nat :=
  (m.filter (fun e => decide (e.1 = k))).length

end Entries

/-- A Go map value: the nil map, or an allocated map with its entries. -/
inductive GoMap (V : Type) where
  | nil : GoMap V
  | mk (entries : Entries V) : GoMap V

namespace GoMap

/-- Read `m[k]`; a missing key (and every key of the nil map) gives `none`,
which stands for the zero value of a pointer, map or func type. -/
def get {V : Type} (m : GoMap V) (k : String) : Option V :=
  match m with
  | nil => none
  | mk es => es.get k

/-- Index expression `m[k]` on a map of pointers: the stored pointer, and the
nil pointer `none` for a missing key, for a key that holds nil and for every
key of the nil map. -/
def load {P : Type} (m : GoMap (Option P)) (k : String) : Option P :=
  match m.get k with
  | some p => p
  | none => none

/-- Write `m[k] = v`; `none` is the run-time panic
"assignment to entry in nil map". -/
def set {V : Type} (m : GoMap V) (k : String) (v : V) : Option (GoMap V) :=
  match m with
  | nil => none
  | mk es => some (mk (es.set k v))

/-- Builtin `delete(m, k)`; a no-op on the nil map. -/
def delete {V : Type} (m : GoMap V) (k : String) : GoMap V :=
  match m with
  | nil => nil
  | mk es => mk (es.delete k)

/-- Number of entries stored under key `k`. -/
def count {V : Type} (m : GoMap V) (k : String) : Nat :=
  match m with
  | nil => 0
  | mk es => es.count k

/-- Whether the map is the nil map. -/
def isNil {V : Type} (m : GoMap V) : Bool :=
  match m with
  | nil => true
  | mk _ => false

end GoMap

/-! ## Values, errors and JSON encoding -/

deriving instance DecidableEq for Except

/-- Text of a Go `error` value. -/
abbrev GoError := String

/-- Go values that travel through `interface{}` in this program. -/
inductive Value where
  | null : Value
  | bool (b : Bool) : Value
  | int (i : Int) : Value
  | str (s : String) : Value
  | bytes (b : List Nat) : Value
  | strMap (m : Entries String) : Value
  | chan : Value
  deriving DecidableEq, Repr

/-- Lower-case hexadecimal digit. -/
def hexDigit (n : Nat) : Char :=
  if n < 10 then Char.ofNat (48 + n) else Char.ofNat (87 + n)

/-- Escape sequence `\u00XX` for a code point below 256. -/
def escapeU00 (n : Nat) : List Char :=
  [Char.ofNat 92, Char.ofNat 117, Char.ofNat 48, Char.ofNat 48, hexDigit (n / 16), hexDigit (n % 16)]

/-- Escaping of one character by `encoding/json` with HTML escaping on, as
`json.Marshal` does it: control characters other than newline, carriage
return and tab are written as `\u00XX`. -/
def escapeChar (c : Char) : List Char :=
  let n := c.toNat
  if n = 34 then [Char.ofNat 92, Char.ofNat 34]
  else if n = 92 then [Char.ofNat 92, Char.ofNat 92]
  else if n = 10 then [Char.ofNat 92, Char.ofNat 110]
  else if n = 13 then [Char.ofNat 92, Char.ofNat 114]
  else if n = 9 then [Char.ofNat 92, Char.ofNat 116]
  else if n < 32 ∨ n = 60 ∨ n = 62 ∨ n = 38 then escapeU00 n
  else if n = 8232 then [Char.ofNat 92, Char.ofNat 117, Char.ofNat 50, Char.ofNat 48, Char.ofNat 50, Char.ofNat 56]
  else if n = 8233 then [Char.ofNat 92, Char.ofNat 117, Char.ofNat 50, Char.ofNat 48, Char.ofNat 50, Char.ofNat 57]
  else [c]

/-- JSON string literal for a Go string. -/
def quote (s : String) : String :=
  String.mk ([Char.ofNat 34] ++ (s.data.map escapeChar).flatten ++ [Char.ofNat 34])

/-- Digit of the standard base64 alphabet. -/
def base64Digit (n : Nat) : Char :=
  if n < 26 then Char.ofNat (65 + n)
  else if n < 52 then Char.ofNat (71 + n)
  else if n < 62 then Char.ofNat (n - 4)
  else if n = 62 then Char.ofNat 43
  else Char.ofNat 47

/-- Standard padded base64 of a byte sequence. -/
def base64 : List Nat → List Char
  | [] => []
  | [a] => [base64Digit (a / 4), base64Digit (a % 4 * 16), Char.ofNat 61, Char.ofNat 61]
  | [a, b] =>
    [base64Digit (a / 4), base64Digit (a % 4 * 16 + b / 16), base64Digit (b % 16 * 4), Char.ofNat 61]
  | a :: b :: c :: rest =>
    [base64Digit (a / 4), base64Digit (a % 4 * 16 + b / 16),
      base64Digit (b % 16 * 4 + c / 64), base64Digit (c % 64)] ++ base64 rest

/-- Lexicographic order on code point sequences. -/
def ltCodes : List Nat → List Nat → Bool
  | _, [] => false
  | [], _ :: _ => true
  | a :: as, b :: bs => if a < b then true else if b < a then false else ltCodes as bs

/-- Order in which `encoding/json` emits map keys. -/
def keyLt (a b : String) : Bool :=
  ltCodes (a.data.map Char.toNat) (b.data.map Char.toNat)

/-- Insert an entry into a key-sorted list. -/
def insertByKey (e : String × String) : Entries String → Entries String
  | [] => [e]
  | x :: xs => if keyLt e.1 x.1 then e :: x :: xs else x :: insertByKey e xs

/-- Entries sorted by key. -/
def sortByKey (m : Entries String) : Entries String :=
  m.foldr insertByKey []

/-- Members `"k":"v"` of a JSON object, comma separated. -/
def encodeMembers : Entries String → String
  | [] => ""
  | [(k, v)] => quote k ++ ":" ++ quote v
  | (k, v) :: rest => quote k ++ ":" ++ quote v ++ "," ++ encodeMembers rest

/-- The `encoding/json` rendering of a value, or the error it reports. -/
def encodeValue (v : Value) : Except GoError String :=
  match v with
  | Value.null => Except.ok "null"
  | Value.bool b => Except.ok (if b then "true" else "false")
  | Value.int i => Except.ok (toString i)
  | Value.str s => Except.ok (quote s)
  | Value.bytes b => Except.ok (String.mk ([Char.ofNat 34] ++ base64 b ++ [Char.ofNat 34]))
  | Value.strMap m => Except.ok ("\x7b" ++ encodeMembers (sortByKey m) ++ "\x7d")
  | Value.chan => Except.error "json: unsupported type: chan int"

/-- The call `json.Marshal(d)` for the one-entry map `d` with `d[t] = data`
built by `SendResponse`. -/
def jsonMarshal (t : String) (data : Value) : Except GoError String :=
  match encodeValue data with
  | Except.ok s => Except.ok ("\x7b" ++ quote t ++ ":" ++ s ++ "\x7d")
  | Except.error e => Except.error e

/-! ## Server state and the outside world -/

/-- Identity of an established transport channel (a non-nil `*websocket.Conn`). -/
abbrev Conn := Nat

/-- Clock reading `time.Time`, in nanoseconds. -/
abbrev Time := Int

/-- Length of time `time.Duration`, in nanoseconds. -/
abbrev Duration := Int

/-- Constant `websocket.TextMessage`. -/
def TextMessage : Nat := 1

/-- Constant `websocket.BinaryMessage`. -/
def BinaryMessage : Nat := 2

/-- Constant `websocket.PingMessage`. -/
def PingMessage : Nat := 9

/-- Type `DataHandler`: `func(string, interface{}) (interface{}, error)`.
The second component of the result is `none` for a nil error. -/
abbrev DataHandler := String → Value → Value × Option GoError

/-- The three handler tables. -/
inductive HandlerKind where
  | connect : HandlerKind
  | disconnect : HandlerKind
  | message : HandlerKind
  deriving DecidableEq, Repr

/-- Observable actions of the server, in program order. -/
inductive Event where
  | lock : Event
  | unlock : Event
  | write (c : Conn) (mt : Nat) (body : String) : Event
  | close (c : Conn) : Event
  | invoke (kind : HandlerKind) (connectionID : String) (input : Value) : Event
  | goKeepAlive (connID : String) : Event
  | setPongHandler (c : Conn) : Event
  | sleep (d : Duration) : Event
  deriving DecidableEq, Repr

/-- Fields of `WebsocketServer` that the modelled functions use, followed by
the record `wire` of what the server has done so far and by `net`, the
transport: given the record so far, the error (if any) that the next
`WriteMessage` call returns. -/
structure WebsocketServer where
  Timeout : Duration
  Connections : GoMap (Option Conn)
  Subscriptions : GoMap (Entries Time)
  onConnectHandler : GoMap DataHandler
  onDisconnectHandler : GoMap DataHandler
  onMessageHandler : GoMap DataHandler
  wire : List Event
  net : List Event → Option GoError

/-- Append actions to the record of what the server has done. -/
def WebsocketServer.emit (ws : WebsocketServer) (evs : List Event) : WebsocketServer :=
  { ws with wire := ws.wire ++ evs }

/-- Result of a call that may panic; the state is the one reached when the
call returned or when the panic was raised. -/
inductive Res (α : Type) where
  | ok (ws : WebsocketServer) (val : α) : Res α
  | panic (ws : WebsocketServer) (msg : String) : Res α

/-- State carried by a result. -/
def Res.state {α : Type} (r : Res α) : WebsocketServer :=
  match r with
  | Res.ok ws _ => ws
  | Res.panic ws _ => ws

/-- Whether the call returned normally. -/
def Res.isOk {α : Type} (r : Res α) : Bool :=
  match r with
  | Res.ok _ _ => true
  | Res.panic _ _ => false

/-! ## Subscription registry -/

/-- Method `Subscribe`; `now` is the reading of `time.Now()`. -/
def Subscribe (ws : WebsocketServer) (channel connectionID : String) (now : Time) : Res Unit :=
  let ws := ws.emit [Event.lock]
  let ch : Entries Time :=
    match ws.Subscriptions.get channel with
    | none => []
    | some m => m
  let ch := ch.set connectionID now
  match ws.Subscriptions.set channel ch with
  | none => Res.panic ws "assignment to entry in nil map"
  | some subs => Res.ok ({ ws with Subscriptions := subs }.emit [Event.unlock]) ()

/-- Consecutive `Subscribe(channel, connectionID)` calls at the clock readings
`times`; a panic ends the sequence. -/
def subscribeAll (ws : WebsocketServer) (channel connectionID : String) : List Time → Res Unit
  | [] => Res.ok ws ()
  | t :: rest =>
    match Subscribe ws channel connectionID t with
    | Res.ok ws1 _ => subscribeAll ws1 channel connectionID rest
    | Res.panic ws1 msg => Res.panic ws1 msg

/-! ## Sending -/

/-- Function `checkConnection`; on success the non-nil handle is returned. -/
def checkConnection (c : Option Conn) : Except GoError Conn :=
  match c with
  | none => Except.error "[WS]: Connection is nil"
  | some conn => Except.ok conn

/-- Method `SendResponse`. -/
def SendResponse (ws : WebsocketServer) (c : Option Conn) (mt : Nat) (t : String) (data : Value) :
    WebsocketServer × Option GoError :=
  match checkConnection c with
  | Except.error err => (ws, some err)
  | Except.ok conn =>
    match jsonMarshal t data with
    | Except.error err => (ws, some err)
    | Except.ok message =>
      let err := ws.net (ws.wire ++ [Event.lock])
      (ws.emit [Event.lock, Event.write conn mt message, Event.unlock], err)

/-- Method `SendErrror`. -/
def SendErrror (ws : WebsocketServer) (c : Option Conn) (message : String) (err : GoError) :
    WebsocketServer × Option GoError :=
  let resp : Entries String := []
  let resp := resp.set "message" message
  let resp := resp.set "stack" err
  SendResponse ws c TextMessage "error" (Value.strMap resp)

/-- Method `SendText`. -/
def SendText (ws : WebsocketServer) (c : Option Conn) (data : Value) : WebsocketServer × Option GoError :=
  match checkConnection c with
  | Except.error err => (ws, some err)
  | Except.ok _ => SendResponse ws c TextMessage "data" data

/-- The statement pair `if m == nil { m = make(...) }; m[route] = handler`. -/
def register (m : GoMap DataHandler) (route : String) (handler : DataHandler) : GoMap DataHandler :=
  match m with
  | GoMap.nil => GoMap.mk (Entries.set [] route handler)
  | GoMap.mk es => GoMap.mk (es.set route handler)

/-- Method `OnConnect`. -/
def OnConnect (ws : WebsocketServer) (route : String) (handler : DataHandler) : WebsocketServer :=
  { ws with onConnectHandler := register ws.onConnectHandler route handler }

/-- Method `OnDisconnect`. -/
def OnDisconnect (ws : WebsocketServer) (route : String) (handler : DataHandler) : WebsocketServer :=
  { ws with onDisconnectHandler := register ws.onDisconnectHandler route handler }

/-- Method `OnMessage`. -/
def OnMessage (ws : WebsocketServer) (route : String) (handler : DataHandler) : WebsocketServer :=
  { ws with onMessageHandler := register ws.onMessageHandler route handler }

/-! ## Connection registry and lifecycle -/

/-- Method `destroyConnection`. -/
def destroyConnection (ws : WebsocketServer) (ID : String) : WebsocketServer × Option GoError :=
  match ws.Connections.load ID with
  | none => (ws, none)
  | some _ => ({ ws with Connections := ws.Connections.delete ID }, none)

/-- Method `newConnection`; `uid` is the result of `uuid.NewV4()` rendered
as a string, `c` the channel produced by a successful upgrade. -/
def newConnection (ws : WebsocketServer) (uid : Except GoError String) (route : String) (c : Conn) :
    Res (String × Option GoError) :=
  match uid with
  | Except.error err => Res.ok ws ("", some err)
  | Except.ok ID =>
    match ws.Connections.set ID (some c) with
    | none => Res.panic ws "assignment to entry in nil map"
    | some conns =>
      let ws := { ws with Connections := conns }
      let ws := ws.emit [Event.goKeepAlive ID]
      match ws.onConnectHandler.get route with
      | none => Res.ok ws (ID, none)
      | some onConnect =>
        let ws := ws.emit [Event.invoke HandlerKind.connect ID Value.null]
        let (resp, err) := onConnect ID Value.null
        let ws :=
          match err with
          | some e => (SendErrror ws (some c) "onConnect error" e).1
          | none => ws
        let ws := (SendText ws (some c) resp).1
        Res.ok ws (ID, none)

/-- One result of `c.ReadMessage()`. -/
inductive ReadResult where
  | message (mt : Nat) (data : List Nat) : ReadResult
  | error (err : GoError) : ReadResult
  deriving DecidableEq, Repr

/-- How a run of the read loop, or of `Handler`, ends: it returns, it panics,
or it is waiting in `ReadMessage` because no further input was scripted. -/
inductive Exit where
  | returned : Exit
  | panicked (msg : String) : Exit
  | waiting : Exit
  deriving DecidableEq, Repr

/-- The `for` loop of `Handler`, run on the scripted results of `ReadMessage`. -/
def Handler.loop (route connectionID : String) (c : Conn) :
    WebsocketServer → List ReadResult → WebsocketServer × Exit
  | ws, [] => (ws, Exit.waiting)
  | ws, ReadResult.error _ :: _ => (ws, Exit.returned)
  | ws, ReadResult.message mt message :: rest =>
    match ws.onMessageHandler.get route with
    | none => (ws, Exit.panicked "invalid memory address or nil pointer dereference")
    | some onMessage =>
      let ws := ws.emit [Event.invoke HandlerKind.message connectionID (Value.bytes message)]
      match onMessage connectionID (Value.bytes message) with
      | (_, some e) => Handler.loop route connectionID c (SendErrror ws (some c) e e).1 rest
      | (response, none) => Handler.loop route connectionID c (SendResponse ws (some c) mt "data" response).1 rest

/-- The deferred function of `Handler`. -/
def Handler.deferred (ws : WebsocketServer) (connectionID : String) (c : Conn) : WebsocketServer :=
  let ws := (destroyConnection ws connectionID).1
  ws.emit [Event.close c]

/-- The expression `strings.Split(url, "?")[0]`. -/
def routeOf (url : String) : String :=
  String.mk (url.data.takeWhile (fun ch => decide (ch.toNat ≠ 63)))

/-- Method `Handler`; `upgrade` is the result of `ws.Upgrader.Upgrade`, `uid`
that of the identifier generator, `reads` the successive results of
`c.ReadMessage()`.  The deferred function runs when the loop is left, by
`break` or by a panic. -/
def Handler (ws : WebsocketServer) (upgrade : Except GoError Conn) (uid : Except GoError String)
    (url : String) (reads : List ReadResult) : WebsocketServer × Exit :=
  let route := routeOf url
  match upgrade with
  | Except.error _ => (ws, Exit.returned)
  | Except.ok c =>
    match newConnection ws uid route c with
    | Res.panic ws1 msg => (ws1, Exit.panicked msg)
    | Res.ok ws1 (connectionID, _) =>
      match Handler.loop route connectionID c ws1 reads with
      | (ws2, Exit.waiting) => (ws2, Exit.waiting)
      | (ws2, exit) => (Handler.deferred ws2 connectionID c, exit)

/-! ## Keepalive -/

/-- What one cycle of the `keepAlive` loop finds in its surroundings. -/
structure Tick where
  /-- Content of `ws.Connections` when the cycle starts. -/
  conns : GoMap (Option Conn)
  /-- Error returned by the probe's `WriteMessage`, if any. -/
  pingErr : Option GoError
  /-- Clock reading taken by the last run of the pong handler since the
  previous check, if the handler ran. -/
  pong : Option Time
  /-- Reading of `time.Now()` in the check that follows the sleep. -/
  now : Time

/-- How a run of `keepAlive` ends. -/
inductive KeepAliveExit where
  | running : KeepAliveExit
  | gone : KeepAliveExit
  | probeFailed : KeepAliveExit
  | timedOut : KeepAliveExit
  | panicked : KeepAliveExit
  deriving DecidableEq, Repr

/-- The `for` loop of `keepAlive`. -/
def keepAlive.loop (timeout : Duration) (connID : String) :
    Time → List Tick → List Event × KeepAliveExit
  | _, [] => ([], KeepAliveExit.running)
  | lastResponse, tk :: rest =>
    match tk.conns.load connID with
    | none => ([], KeepAliveExit.gone)
    | some c =>
      let probe := [Event.lock, Event.write c PingMessage "ping", Event.unlock]
      match tk.pingErr with
      | some _ => (probe, KeepAliveExit.probeFailed)
      | none =>
        let slept := probe ++ [Event.sleep (timeout.tdiv 10)]
        let lastResponse :=
          match tk.pong with
          | some t => t
          | none => lastResponse
        if tk.now - lastResponse > timeout then
          (slept ++ [Event.close c], KeepAliveExit.timedOut)
        else
          let r := keepAlive.loop timeout connID lastResponse rest
          (slept ++ r.1, r.2)

/-- Method `keepAlive`; `start` is the reading of `time.Now()` that
initialises `lastResponse`, `ticks` the surroundings of the successive cycles. -/
def keepAlive (ws : WebsocketServer) (connID : String) (start : Time) (ticks : List Tick) :
    List Event × KeepAliveExit :=
  match ws.Connections.load connID with
  | none => ([], KeepAliveExit.panicked)
  | some c =>
    let r := keepAlive.loop ws.Timeout connID start ticks
    (Event.setPongHandler c :: r.1, r.2)

/-! ## Sample states -/

/-- The zero value `WebsocketServer{}` with a transport that never fails. -/
def zeroServer : WebsocketServer :=
  { Timeout := 0
    Connections := GoMap.nil
    Subscriptions := GoMap.nil
    onConnectHandler := GoMap.nil
    onDisconnectHandler := GoMap.nil
    onMessageHandler := GoMap.nil
    wire := []
    net := fun _ => none }

/-- A server with allocated, empty registries and a one second timeout. -/
def freshServer : WebsocketServer :=
  { zeroServer with
    Timeout := 1000000000
    Connections := GoMap.mk []
    Subscriptions := GoMap.mk [] }

/-- The frames handed to `WriteMessage` in a record of actions, in order. -/
def writesOf : List Event → List (Conn × Nat × String)
  | [] => []
  | Event.write c mt body :: rest => (c, mt, body) :: writesOf rest
  | _ :: rest => writesOf rest

/-- The handler invocations in a record of actions, in order. -/
def invocationsOf : List Event → List (HandlerKind × String × Value)
  | [] => []
  | Event.invoke kind connectionID input :: rest => (kind, connectionID, input) :: invocationsOf rest
  | _ :: rest => invocationsOf rest

/-- ASCII upper-casing of one byte. -/
def upperByte (n : Nat) : Nat :=
  if 97 ≤ n ∧ n ≤ 122 then n - 32 else n

/-- A message handler that answers with its input, upper-cased, as a string. -/
def upperHandler : DataHandler := fun _ input =>
  match input with
  | Value.bytes b => (Value.str (String.mk (b.map (fun n => Char.ofNat (upperByte n)))), none)
  | _ => (Value.null, some "unexpected input")

/-- A handler that always fails with the error `boom`. -/
def failingHandler : DataHandler := fun _ _ => (Value.null, some "boom")

/-- A handler that succeeds with a channel, a value `encoding/json` rejects. -/
def chanHandler : DataHandler := fun _ _ => (Value.chan, none)

/-- A handler that succeeds with a nil result. -/
def quietHandler : DataHandler := fun _ _ => (Value.null, none)

/-- The bytes of the text `ping`. -/
def pingBytes : List Nat := [112, 105, 110, 103]

/-- The actions of one keepalive cycle that gets as far as its sleep. -/
def probeCycle (c : Conn) (q : Duration) : List Event :=
  [Event.lock, Event.write c PingMessage "ping", Event.unlock, Event.sleep q]

/-- Number of the first check at which `k` sleeps of `timeout / 10` add up to
more than `timeout`. -/
def timeoutCycles (timeout : Duration) : Nat :=
  (timeout / timeout.tdiv 10).toNat + 1

/-- Surroundings of `n` keepalive cycles in which the registry stays `conns`,
every probe succeeds, no pong arrives and the check after the `k`-th sleep
reads the clock at `start + k * q`. -/
def steadyTicks (conns : GoMap (Option Conn)) (start : Time) (q : Duration) (n : Nat) : List Tick :=
  (List.range n).map
    (fun (k : Nat) => { conns := conns, pingErr := none, pong := none, now := start + ((k : Int) + 1) * q })

/-! ## Facts about the record of actions -/

@[simp]
theorem emit_nil (ws : WebsocketServer) : ws.emit [] = ws := by
  simp [WebsocketServer.emit]

@[simp]
theorem emit_emit (ws : WebsocketServer) (a b : List Event) :
    (ws.emit a).emit b = ws.emit (a ++ b) := by
  simp [WebsocketServer.emit, List.append_assoc]

@[simp]
theorem emit_wire (ws : WebsocketServer) (a : List Event) : (ws.emit a).wire = ws.wire ++ a := rfl

@[simp]
theorem emit_Subscriptions (ws : WebsocketServer) (a : List Event) :
    (ws.emit a).Subscriptions = ws.Subscriptions := rfl

@[simp]
theorem emit_onDisconnectHandler (ws : WebsocketServer) (a : List Event) :
    (ws.emit a).onDisconnectHandler = ws.onDisconnectHandler := rfl

@[simp]
theorem emit_onMessageHandler (ws : WebsocketServer) (a : List Event) :
    (ws.emit a).onMessageHandler = ws.onMessageHandler := rfl

@[simp]
theorem emit_Timeout (ws : WebsocketServer) (a : List Event) : (ws.emit a).Timeout = ws.Timeout := rfl

@[simp]
theorem emit_net (ws : WebsocketServer) (a : List Event) : (ws.emit a).net = ws.net := rfl

/-! ## Facts about Go maps -/

namespace Entries

theorem get_set_self {V : Type} (m : Entries V) (k : String) (v : V) :
    (m.set k v).get k = some v := by
  simp [set, get]

theorem get_delete_self {V : Type} (m : Entries V) (k : String) :
    (m.delete k).get k = none := by
  induction m with
  | nil => rfl
  | cons e rest ih =>
    by_cases h : e.1 = k
    · simpa [delete, List.filter_cons, h] using ih
    · simp only [delete, List.filter_cons, h, ne_eq, not_false_eq_true, decide_True, if_true]
      simp only [get, h, if_false]
      simpa [delete] using ih

theorem get_delete_other {V : Type} (m : Entries V) (k k' : String) (hk : k' ≠ k) :
    (m.delete k).get k' = m.get k' := by
  induction m with
  | nil => rfl
  | cons e rest ih =>
    by_cases h : e.1 = k
    · have h' : e.1 ≠ k' := fun h2 => hk (h2.symm.trans h)
      simp only [delete, List.filter_cons, h, ne_eq, not_true_eq_false, decide_False]
      simp only [get, h', if_false]
      simpa [delete] using ih
    · simp only [delete, List.filter_cons, h, ne_eq, not_false_eq_true, decide_True, if_true]
      by_cases h2 : e.1 = k'
      · simp [get, h2]
      · simp only [get, h2, if_false]
        simpa [delete] using ih

theorem delete_of_get_none {V : Type} (m : Entries V) (k : String) (h : m.get k = none) :
    m.delete k = m := by
  induction m with
  | nil => rfl
  | cons e rest ih =>
    by_cases h1 : e.1 = k
    · simp [get, h1] at h
    · simp only [get, h1, if_false] at h
      have h2 := ih h
      simp only [delete] at h2 ⊢
      rw [List.filter_cons, h2]
      simp [h1]

theorem count_delete_self {V : Type} (m : Entries V) (k : String) :
    (m.delete k).count k = 0 := by
  simp [count, delete, List.filter_filter]

theorem count_set_self {V : Type} (m : Entries V) (k : String) (v : V) :
    (m.set k v).count k = 1 := by
  have h := count_delete_self m k
  simp only [count] at h
  simp [set, count, List.filter_cons, h]

theorem delete_delete {V : Type} (m : Entries V) (k : String) :
    (m.delete k).delete k = m.delete k := by
  simp [delete, List.filter_filter]

end Entries

namespace GoMap

theorem get_after_delete {V : Type} (m : GoMap V) (k : String) : (m.delete k).get k = none := by
  cases m with
  | nil => rfl
  | mk es => exact Entries.get_delete_self es k

theorem get_after_delete_other {V : Type} (m : GoMap V) (k k' : String) (hk : k' ≠ k) :
    (m.delete k).get k' = m.get k' := by
  cases m with
  | nil => rfl
  | mk es => exact Entries.get_delete_other es k k' hk

theorem delete_absent {V : Type} (m : GoMap V) (k : String) (h : m.get k = none) :
    m.delete k = m := by
  cases m with
  | nil => rfl
  | mk es => exact congrArg GoMap.mk (Entries.delete_of_get_none es k h)

theorem count_after_delete {V : Type} (m : GoMap V) (k : String) : (m.delete k).count k = 0 := by
  cases m with
  | nil => rfl
  | mk es => exact Entries.count_delete_self es k

end GoMap

/-! ## Connection registry -/

theorem load_none_of_get_none (m : GoMap (Option Conn)) (k : String) (h : m.get k = none) :
    m.load k = none := by
  simp [GoMap.load, h]

theorem destroyConnection_absent (ws : WebsocketServer) (ID : String)
    (h : ws.Connections.load ID = none) : destroyConnection ws ID = (ws, none) := by
  simp [destroyConnection, h]

theorem destroyConnection_present (ws : WebsocketServer) (ID : String)
    (h : ws.Connections.load ID ≠ none) :
    destroyConnection ws ID = ({ ws with Connections := ws.Connections.delete ID }, none) := by
  cases hc : ws.Connections.load ID with
  | none => exact absurd hc h
  | some c => simp [destroyConnection, hc]

theorem destroyConnection_load_self (ws : WebsocketServer) (ID : String) :
    (destroyConnection ws ID).1.Connections.load ID = none := by
  cases hc : ws.Connections.load ID with
  | none => rw [destroyConnection_absent ws ID hc]; exact hc
  | some c =>
    rw [destroyConnection_present ws ID (by simp [hc])]
    exact load_none_of_get_none _ _ (GoMap.get_after_delete _ _)

/-- C3, as stated, fails on a registry in which the key holds a nil channel:
the entry is present, `ws.Connections[ID] == nil` is true, and
`destroyConnection` returns without deleting it. -/
theorem destroyConnection_keeps_nil_entry :
    ({ freshServer with Connections := GoMap.mk [("x", none)] } : WebsocketServer).Connections.count "x" = 1 ∧
    (destroyConnection { freshServer with Connections := GoMap.mk [("x", none)] } "x").1.Connections.get "x"
      = some none ∧
    (destroyConnection { freshServer with Connections := GoMap.mk [("x", none)] } "x").1.Connections.count "x"
      = 1 := by
  refine ⟨rfl, rfl, rfl⟩

/-- C3, amended. `destroyConnection` returns a nil error on every registry
state; when `ID` holds a non-nil channel, the result is the same server with
the entries of key `ID` filtered out of `Connections` (so `ID` has no entry
left and every other key reads as before); when `ID` has no entry or holds a
nil channel the server is unchanged; and a second call changes nothing more. -/
theorem destroyConnection_idempotent_remove (ws : WebsocketServer) (ID : String) :
    (destroyConnection ws ID).2 = none ∧
    (ws.Connections.load ID ≠ none →
      (destroyConnection ws ID).1 = { ws with Connections := ws.Connections.delete ID } ∧
      (∃ es, ws.Connections = GoMap.mk es ∧
        (destroyConnection ws ID).1.Connections = GoMap.mk (es.filter (fun e => decide (e.1 ≠ ID)))) ∧
      (destroyConnection ws ID).1.Connections.get ID = none ∧
      (destroyConnection ws ID).1.Connections.count ID = 0 ∧
      ∀ k, k ≠ ID → (destroyConnection ws ID).1.Connections.get k = ws.Connections.get k) ∧
    (ws.Connections.get ID = none → (destroyConnection ws ID).1 = ws) ∧
    (ws.Connections.get ID = some none → (destroyConnection ws ID).1 = ws) ∧
    destroyConnection (destroyConnection ws ID).1 ID = destroyConnection ws ID := by
  refine ⟨?_, ?_, ?_, ?_, ?_⟩
  · cases hc : ws.Connections.load ID <;> simp [destroyConnection, hc]
  · intro h
    rw [destroyConnection_present ws ID h]
    refine ⟨rfl, ?_, GoMap.get_after_delete _ _, GoMap.count_after_delete _ _, ?_⟩
    · cases hm : ws.Connections with
      | nil => rw [hm] at h; exact absurd rfl h
      | mk es => exact ⟨es, rfl, rfl⟩
    · intro k hk
      exact GoMap.get_after_delete_other _ _ _ hk
  · intro h
    rw [destroyConnection_absent ws ID (load_none_of_get_none _ _ h)]
  · intro h
    rw [destroyConnection_absent ws ID (by simp [GoMap.load, h])]
  · rw [destroyConnection_absent _ ID (destroyConnection_load_self ws ID)]
    have h2 : (destroyConnection ws ID).2 = none := by
      cases hc : ws.Connections.load ID <;> simp [destroyConnection, hc]
    exact Prod.ext rfl h2.symm

/-- C3, witness: a registry holding `a` and `b` with non-nil channels;
removing `a` leaves `b`, and removing the unknown `z` changes nothing. -/
theorem destroyConnection_idempotent_remove_witness :
    ({ freshServer with Connections := GoMap.mk [("a", some 1), ("b", some 2)] } :
      WebsocketServer).Connections.load "a" ≠ none ∧
    (destroyConnection { freshServer with Connections := GoMap.mk [("a", some 1), ("b", some 2)] }
      "a").1.Connections.get "a" = none ∧
    (destroyConnection { freshServer with Connections := GoMap.mk [("a", some 1), ("b", some 2)] }
      "a").1.Connections.get "b" = some (some 2) ∧
    (destroyConnection { freshServer with Connections := GoMap.mk [("a", some 1), ("b", some 2)] } "z").1
      = { freshServer with Connections := GoMap.mk [("a", some 1), ("b", some 2)] } :=
  ⟨by decide,
   ((destroyConnection_idempotent_remove _ "a").2.1 (by decide)).2.2.1,
   (((destroyConnection_idempotent_remove
      { freshServer with Connections := GoMap.mk [("a", some 1), ("b", some 2)] } "a").2.1
      (by decide)).2.2.2.2 "b" (by decide)).trans (by decide),
   (destroyConnection_idempotent_remove _ "z").2.2.1 (by decide)⟩

/-! ## Subscription registry -/

theorem Subscribe_allocated (ws : WebsocketServer) (channel connectionID : String) (now : Time)
    (es : Entries (Entries Time)) (h : ws.Subscriptions = GoMap.mk es) :
    ∃ members : Entries Time,
      Subscribe ws channel connectionID now =
        Res.ok ({ ws.emit [Event.lock] with
          Subscriptions := GoMap.mk (es.set channel (members.set connectionID now)) }.emit
            [Event.unlock]) () := by
  cases hg : es.get channel with
  | none => exact ⟨[], by simp [Subscribe, WebsocketServer.emit, h, GoMap.get, GoMap.set, hg]⟩
  | some m => exact ⟨m, by simp [Subscribe, WebsocketServer.emit, h, GoMap.get, GoMap.set, hg]⟩

theorem subscribeAll_append (channel connectionID : String) (t : Time) :
    ∀ (ts : List Time) (ws : WebsocketServer),
      subscribeAll ws channel connectionID (ts ++ [t]) =
        match subscribeAll ws channel connectionID ts with
        | Res.ok ws1 _ => Subscribe ws1 channel connectionID t
        | Res.panic ws1 msg => Res.panic ws1 msg := by
  intro ts
  induction ts with
  | nil =>
    intro ws
    simp only [List.nil_append, subscribeAll]
    cases Subscribe ws channel connectionID t <;> rfl
  | cons a rest ih =>
    intro ws
    simp only [List.cons_append, subscribeAll]
    cases Subscribe ws channel connectionID a with
    | ok ws1 _ => exact ih ws1
    | panic ws1 msg => rfl

theorem subscribeAll_allocated (channel connectionID : String) :
    ∀ (ts : List Time) (ws : WebsocketServer), ws.Subscriptions.isNil = false →
      ∃ ws1, subscribeAll ws channel connectionID ts = Res.ok ws1 () ∧ ws1.Subscriptions.isNil = false := by
  intro ts
  induction ts with
  | nil => intro ws h; exact ⟨ws, rfl, h⟩
  | cons a rest ih =>
    intro ws h
    cases hm : ws.Subscriptions with
    | nil => rw [hm] at h; exact absurd h (by decide)
    | mk es =>
      obtain ⟨members, hs⟩ := Subscribe_allocated ws channel connectionID a es hm
      simp only [subscribeAll, hs]
      exact ih _ rfl

/-- C1, as stated, fails on the zero value of the server: `Subscriptions` is
the nil map there and the first `Subscribe` panics on the map assignment. -/
theorem Subscribe_nil_registry_panics :
    (Subscribe zeroServer "news" "c1" 1).isOk = false ∧
    (subscribeAll zeroServer "news" "c1" [1]).isOk = false ∧
    (subscribeAll zeroServer "news" "c1" [1]).state.Subscriptions.get "news" = none := by
  refine ⟨rfl, rfl, rfl⟩

/-- C1, amended. For every server whose `Subscriptions` map is allocated
(with or without an entry for the channel), every channel, connection ID and
non-empty sequence of `Subscribe` calls at the clock readings `ts`: no call
panics, and afterwards the registry holds exactly one entry for the channel,
whose member map holds exactly one entry for the connection ID, stamped with
the last reading of `ts`. -/
theorem Subscribe_upsert (ws : WebsocketServer) (channel connectionID : String) (ts : List Time)
    (hreg : ws.Subscriptions.isNil = false) (hne : ts ≠ []) :
    ∃ ws1 members,
      subscribeAll ws channel connectionID ts = Res.ok ws1 () ∧
      ws1.Subscriptions.get channel = some members ∧
      ws1.Subscriptions.count channel = 1 ∧
      members.count connectionID = 1 ∧
      members.get connectionID = some (ts.getLast hne) := by
  have hsplit : ts = ts.dropLast ++ [ts.getLast hne] := (List.dropLast_append_getLast hne).symm
  obtain ⟨ws0, h0, hreg0⟩ := subscribeAll_allocated channel connectionID ts.dropLast ws hreg
  cases hm : ws0.Subscriptions with
  | nil => rw [hm] at hreg0; exact absurd hreg0 (by decide)
  | mk es =>
    obtain ⟨members, hs⟩ := Subscribe_allocated ws0 channel connectionID (ts.getLast hne) es hm
    have hfin : subscribeAll ws channel connectionID ts =
        Subscribe ws0 channel connectionID (ts.getLast hne) := by
      conv => lhs; rw [hsplit]
      rw [subscribeAll_append, h0]
    rw [hs] at hfin
    exact ⟨_, members.set connectionID (ts.getLast hne), hfin,
      Entries.get_set_self es channel _, Entries.count_set_self es channel _,
      Entries.count_set_self members connectionID _, Entries.get_set_self members connectionID _⟩

/-- C1, witness: three calls on an allocated, empty registry leave the single
member entry stamped with the third reading. -/
theorem Subscribe_upsert_witness :
    ∃ ws1 members,
      subscribeAll freshServer "news" "c1" [10, 20, 30] = Res.ok ws1 () ∧
      ws1.Subscriptions.get "news" = some members ∧
      ws1.Subscriptions.count "news" = 1 ∧
      members.count "c1" = 1 ∧
      members.get "c1" = some 30 :=
  Subscribe_upsert freshServer "news" "c1" [10, 20, 30] rfl (by decide)

/-! ## Sending: what the `Send*` functions change -/

theorem jsonMarshal_error (M S : String) :
    jsonMarshal "error" (Value.strMap (Entries.set (Entries.set [] "message" M) "stack" S)) =
      Except.ok ("\x7b\"error\":\x7b\"message\":" ++ quote M ++ ",\"stack\":" ++ quote S ++ "\x7d\x7d") := by
  have hs : sortByKey (Entries.set (Entries.set [] "message" M) "stack" S) =
      [("message", M), ("stack", S)] := by
    have h1 : keyLt "stack" "message" = false := by decide
    have h2 : ("message" : String) ≠ "stack" := by decide
    simp [sortByKey, Entries.set, Entries.delete, insertByKey, h1, h2]
  simp only [jsonMarshal, encodeValue, hs, encodeMembers]
  congr 1
  apply String.ext
  simp only [String.data_append, List.append_assoc]
  rfl

theorem jsonMarshal_data (r : Value) (s : String) (h : encodeValue r = Except.ok s) :
    jsonMarshal "data" r = Except.ok ("\x7b\"data\":" ++ s ++ "\x7d") := by
  simp only [jsonMarshal, h]
  rfl

theorem jsonMarshal_fails (t : String) (r : Value) (err : GoError) (h : encodeValue r = Except.error err) :
    jsonMarshal t r = Except.error err := by
  simp only [jsonMarshal, h]

theorem SendResponse_encoded (ws : WebsocketServer) (c : Conn) (mt : Nat) (t : String) (data : Value)
    (message : String) (h : jsonMarshal t data = Except.ok message) :
    (SendResponse ws (some c) mt t data).1 = ws.emit [Event.lock, Event.write c mt message, Event.unlock] := by
  simp only [SendResponse, checkConnection, h]

theorem SendResponse_rejected (ws : WebsocketServer) (c : Conn) (mt : Nat) (t : String) (data : Value)
    (err : GoError) (h : jsonMarshal t data = Except.error err) :
    SendResponse ws (some c) mt t data = (ws, some err) := by
  simp only [SendResponse, checkConnection, h]

theorem register_get (m : GoMap DataHandler) (route : String) (handler : DataHandler) :
    (register m route handler).get route = some handler := by
  cases m with
  | nil => exact Entries.get_set_self [] route handler
  | mk es => exact Entries.get_set_self es route handler

/-! ## The read loop, one inbound message at a time -/

/-- C5. When the message handler of the route returns an error `e` for an
inbound message, the iteration hands exactly one frame to `WriteMessage`: a
text frame on the connection of the loop whose body is
`{"error":{"message":M,"stack":S}}` with `M` and `S` both the JSON string for
the text of `e`; no data frame is written; the loop then goes on with the next
read, with `Connections` as it was. -/
theorem Handler_loop_handler_error (ws : WebsocketServer) (route connectionID : String) (c : Conn)
    (mt : Nat) (message : List Nat) (rest : List ReadResult) (h : DataHandler) (resp : Value) (e : GoError)
    (hh : ws.onMessageHandler.get route = some h)
    (hr : h connectionID (Value.bytes message) = (resp, some e)) :
    Handler.loop route connectionID c ws (ReadResult.message mt message :: rest) =
      Handler.loop route connectionID c
        (ws.emit [Event.invoke HandlerKind.message connectionID (Value.bytes message), Event.lock,
          Event.write c TextMessage
            ("\x7b\"error\":\x7b\"message\":" ++ quote e ++ ",\"stack\":" ++ quote e ++ "\x7d\x7d"),
          Event.unlock]) rest ∧
    writesOf [Event.invoke HandlerKind.message connectionID (Value.bytes message), Event.lock,
        Event.write c TextMessage
          ("\x7b\"error\":\x7b\"message\":" ++ quote e ++ ",\"stack\":" ++ quote e ++ "\x7d\x7d"),
        Event.unlock] =
      [(c, TextMessage, "\x7b\"error\":\x7b\"message\":" ++ quote e ++ ",\"stack\":" ++ quote e ++ "\x7d\x7d")] ∧
    (ws.emit [Event.invoke HandlerKind.message connectionID (Value.bytes message), Event.lock,
        Event.write c TextMessage
          ("\x7b\"error\":\x7b\"message\":" ++ quote e ++ ",\"stack\":" ++ quote e ++ "\x7d\x7d"),
        Event.unlock]).Connections = ws.Connections := by
  refine ⟨?_, rfl, rfl⟩
  have hs := SendResponse_encoded
    (ws.emit [Event.invoke HandlerKind.message connectionID (Value.bytes message)]) c TextMessage "error"
    _ _ (jsonMarshal_error e e)
  simp only [Handler.loop, hh, hr, SendErrror, hs, emit_emit]
  rfl

/-- C5, witness: the failing handler answers `ping` with one error frame and
the loop reads on (here into the read error that ends it). -/
theorem Handler_loop_handler_error_witness :
    Handler.loop "/chat" "id-1" 7 (OnMessage freshServer "/chat" failingHandler)
        [ReadResult.message 2 pingBytes, ReadResult.error "EOF"] =
      ((OnMessage freshServer "/chat" failingHandler).emit
        [Event.invoke HandlerKind.message "id-1" (Value.bytes pingBytes), Event.lock,
          Event.write 7 1 "\x7b\"error\":\x7b\"message\":\"boom\",\"stack\":\"boom\"\x7d\x7d",
          Event.unlock], Exit.returned) :=
  (Handler_loop_handler_error (OnMessage freshServer "/chat" failingHandler) "/chat" "id-1" 7 2 pingBytes
    [ReadResult.error "EOF"] failingHandler Value.null "boom" rfl rfl).1

theorem Handler_loop_success_encoded (ws : WebsocketServer) (route connectionID : String) (c : Conn)
    (mt : Nat) (message : List Nat) (rest : List ReadResult) (h : DataHandler) (r : Value) (s : String)
    (hh : ws.onMessageHandler.get route = some h)
    (hr : h connectionID (Value.bytes message) = (r, none))
    (hs : encodeValue r = Except.ok s) :
    Handler.loop route connectionID c ws (ReadResult.message mt message :: rest) =
      Handler.loop route connectionID c
        (ws.emit [Event.invoke HandlerKind.message connectionID (Value.bytes message), Event.lock,
          Event.write c mt ("\x7b\"data\":" ++ s ++ "\x7d"), Event.unlock]) rest := by
  have hw := SendResponse_encoded
    (ws.emit [Event.invoke HandlerKind.message connectionID (Value.bytes message)]) c mt "data"
    r _ (jsonMarshal_data r s hs)
  simp only [Handler.loop, hh, hr, hw, emit_emit]
  rfl

/-- C9, as stated, fails for a handler result that `json.Marshal` rejects:
the handler succeeds with a channel, `SendResponse` returns the encoding error
before `WriteMessage`, and the iteration writes no frame at all. -/
theorem Handler_loop_unencodable_result_writes_nothing :
    chanHandler "id-1" (Value.bytes pingBytes) = (Value.chan, none) ∧
    writesOf (Handler.loop "/chat" "id-1" 7 (OnMessage freshServer "/chat" chanHandler)
      [ReadResult.message 1 pingBytes]).1.wire = [] ∧
    (Handler.loop "/chat" "id-1" 7 (OnMessage freshServer "/chat" chanHandler)
      [ReadResult.message 1 pingBytes]).1.wire =
        [Event.invoke HandlerKind.message "id-1" (Value.bytes pingBytes)] := by
  refine ⟨rfl, rfl, rfl⟩

/-- C9, amended. When the message handler of the route succeeds with result
`r` for an inbound message of transport type `mt`: if `json.Marshal` encodes
`r` as `s`, the iteration hands exactly one frame to `WriteMessage`, of type
`mt` and with body `{"data":s}`, and goes on with the next read; if
`json.Marshal` rejects `r`, no frame is written and the loop goes on with the
next read all the same.  A handler that upper-cases its input answers `ping`
with the frame `{"data":"PING"}` of the inbound type. -/
theorem Handler_loop_handler_success (ws : WebsocketServer) (route connectionID : String) (c : Conn)
    (mt : Nat) (message : List Nat) (rest : List ReadResult) (h : DataHandler) (r : Value)
    (hh : ws.onMessageHandler.get route = some h)
    (hr : h connectionID (Value.bytes message) = (r, none)) :
    (∀ s, encodeValue r = Except.ok s →
      Handler.loop route connectionID c ws (ReadResult.message mt message :: rest) =
        Handler.loop route connectionID c
          (ws.emit [Event.invoke HandlerKind.message connectionID (Value.bytes message), Event.lock,
            Event.write c mt ("\x7b\"data\":" ++ s ++ "\x7d"), Event.unlock]) rest ∧
      writesOf [Event.invoke HandlerKind.message connectionID (Value.bytes message), Event.lock,
          Event.write c mt ("\x7b\"data\":" ++ s ++ "\x7d"), Event.unlock] =
        [(c, mt, "\x7b\"data\":" ++ s ++ "\x7d")]) ∧
    (∀ err, encodeValue r = Except.error err →
      Handler.loop route connectionID c ws (ReadResult.message mt message :: rest) =
        Handler.loop route connectionID c
          (ws.emit [Event.invoke HandlerKind.message connectionID (Value.bytes message)]) rest) ∧
    Handler.loop route connectionID c (OnMessage ws route upperHandler) [ReadResult.message mt pingBytes] =
      ((OnMessage ws route upperHandler).emit
        [Event.invoke HandlerKind.message connectionID (Value.bytes pingBytes), Event.lock,
          Event.write c mt "\x7b\"data\":\"PING\"\x7d", Event.unlock], Exit.waiting) := by
  refine ⟨?_, ?_, ?_⟩
  · intro s hs
    exact ⟨Handler_loop_success_encoded ws route connectionID c mt message rest h r s hh hr hs, rfl⟩
  · intro err he
    have hw := SendResponse_rejected
      (ws.emit [Event.invoke HandlerKind.message connectionID (Value.bytes message)]) c mt "data"
      r err (jsonMarshal_fails "data" r err he)
    simp only [Handler.loop, hh, hr, hw]
  · have hreg : (OnMessage ws route upperHandler).onMessageHandler.get route = some upperHandler :=
      register_get ws.onMessageHandler route upperHandler
    have hx := Handler_loop_success_encoded (OnMessage ws route upperHandler) route connectionID c mt
      pingBytes [] upperHandler (Value.str "PING") "\"PING\"" hreg rfl rfl
    rw [hx]
    rfl

/-- C9, witness: on route `/chat` the upper-casing handler answers a binary
`ping` with one binary frame `{"data":"PING"}`. -/
theorem Handler_loop_handler_success_witness :
    Handler.loop "/chat" "id-1" 7 (OnMessage freshServer "/chat" upperHandler)
        [ReadResult.message 2 pingBytes, ReadResult.error "EOF"] =
      ((OnMessage freshServer "/chat" upperHandler).emit
        [Event.invoke HandlerKind.message "id-1" (Value.bytes pingBytes), Event.lock,
          Event.write 7 2 "\x7b\"data\":\"PING\"\x7d", Event.unlock], Exit.returned) :=
  ((Handler_loop_handler_success (OnMessage freshServer "/chat" upperHandler) "/chat" "id-1" 7 2 pingBytes
    [ReadResult.error "EOF"] upperHandler (Value.str "PING") rfl rfl).1 "\"PING\"" rfl).1

/-! ## Behaviour at the inputs where the code departs from its description -/

/-- C4, the code at a failing input: route `/chat` has no message handler and
one message arrives.  The call through the nil handler panics; nothing is
written to the client; the deferred cleanup still removes the connection and
closes the channel. -/
theorem Handler_missing_message_handler_panics :
    (Handler freshServer (Except.ok 7) (Except.ok "id-1") "/chat" [ReadResult.message 1 pingBytes]).2 =
      Exit.panicked "invalid memory address or nil pointer dereference" ∧
    writesOf (Handler freshServer (Except.ok 7) (Except.ok "id-1") "/chat"
      [ReadResult.message 1 pingBytes]).1.wire = [] ∧
    (Handler freshServer (Except.ok 7) (Except.ok "id-1") "/chat"
      [ReadResult.message 1 pingBytes]).1.wire = [Event.goKeepAlive "id-1", Event.close 7] ∧
    (Handler freshServer (Except.ok 7) (Except.ok "id-1") "/chat"
      [ReadResult.message 1 pingBytes]).1.Connections.get "id-1" = none := by
  refine ⟨rfl, rfl, rfl, rfl⟩

/-- C6, the code at a failing input: the connect handler of `/chat` returns
the error `boom` (with a nil value).  `newConnection` writes the error
envelope and then a data frame `{"data":null}` as well. -/
theorem newConnection_connect_error_also_sends_data :
    failingHandler "id-1" Value.null = (Value.null, some "boom") ∧
    writesOf (newConnection (OnConnect freshServer "/chat" failingHandler) (Except.ok "id-1") "/chat"
      7).state.wire =
      [(7, 1, "\x7b\"error\":\x7b\"message\":\"onConnect error\",\"stack\":\"boom\"\x7d\x7d"),
       (7, 1, "\x7b\"data\":null\x7d")] ∧
    (newConnection (OnConnect freshServer "/chat" failingHandler) (Except.ok "id-1") "/chat"
      7).state.Connections.get "id-1" = some (some 7) := by
  refine ⟨rfl, rfl, rfl⟩

/-- C7, the code at a failing input: a disconnect handler is registered for
`/chat`, one message is served and the read loop then ends on a read error.
The only handler invocation on record is that of the message handler; the
cleanup removes the connection and closes the channel without calling the
disconnect handler. -/
theorem Handler_never_invokes_disconnect_handler :
    (OnDisconnect (OnMessage freshServer "/chat" upperHandler) "/chat"
      quietHandler).onDisconnectHandler.get "/chat" ≠ none ∧
    (Handler (OnDisconnect (OnMessage freshServer "/chat" upperHandler) "/chat" quietHandler)
      (Except.ok 7) (Except.ok "id-1") "/chat"
      [ReadResult.message 1 pingBytes, ReadResult.error "EOF"]).2 = Exit.returned ∧
    invocationsOf (Handler (OnDisconnect (OnMessage freshServer "/chat" upperHandler) "/chat" quietHandler)
      (Except.ok 7) (Except.ok "id-1") "/chat"
      [ReadResult.message 1 pingBytes, ReadResult.error "EOF"]).1.wire =
      [(HandlerKind.message, "id-1", Value.bytes pingBytes)] ∧
    (Handler (OnDisconnect (OnMessage freshServer "/chat" upperHandler) "/chat" quietHandler)
      (Except.ok 7) (Except.ok "id-1") "/chat"
      [ReadResult.message 1 pingBytes, ReadResult.error "EOF"]).1.wire =
      [Event.goKeepAlive "id-1", Event.invoke HandlerKind.message "id-1" (Value.bytes pingBytes),
        Event.lock, Event.write 7 1 "\x7b\"data\":\"PING\"\x7d", Event.unlock, Event.close 7] := by
  refine ⟨by simp [OnDisconnect, register_get], rfl, rfl, rfl⟩

/-! ## Keepalive -/

theorem keepAlive_loop_first_timeout (timeout : Duration) (connID : String) (c : Conn) (start : Time) :
    ∀ (ticks : List Tick) (j : Nat),
      (∀ tk ∈ ticks, tk.conns.load connID = some c ∧ tk.pingErr = none ∧ tk.pong = none) →
      (∀ tk, ticks[j]? = some tk → tk.now - start > timeout) →
      (∀ i tk, i < j → ticks[i]? = some tk → tk.now - start ≤ timeout) →
      j < ticks.length →
      keepAlive.loop timeout connID start ticks =
        ((List.replicate (j + 1) (probeCycle c (timeout.tdiv 10))).flatten ++ [Event.close c],
          KeepAliveExit.timedOut) := by
  intro ticks
  induction ticks with
  | nil => intro j _ _ _ hj; exact absurd hj (by simp)
  | cons tk rest ih =>
    intro j hstay hgt hle hj
    obtain ⟨h1, h2, h3⟩ := hstay tk (List.mem_cons_self _ _)
    cases j with
    | zero =>
      have hnow := hgt tk (by simp)
      simp [keepAlive.loop, h1, h2, h3, hnow, probeCycle]
    | succ j =>
      have hnow := hle 0 tk (Nat.succ_pos j) (by simp)
      have hrec := ih j (fun t ht => hstay t (List.mem_cons_of_mem _ ht))
        (fun t ht => hgt t (by simpa using ht))
        (fun i t hi ht => hle (i + 1) t (Nat.succ_lt_succ hi) (by simpa using ht))
        (Nat.lt_of_succ_lt_succ hj)
      have hnot : ¬ (tk.now - start > timeout) := not_lt.mpr hnow
      simp only [keepAlive.loop, h1, h2, h3, hnot, if_false, hrec]
      simp [probeCycle, List.replicate_succ]

theorem timeout_nonneg (timeout : Int) (hq : 1 ≤ timeout.tdiv 10) : 0 ≤ timeout := by
  by_contra hneg
  have h1 : 0 ≤ -timeout := by omega
  have h2 : 0 ≤ (-timeout).tdiv 10 := Int.tdiv_nonneg h1 (by decide)
  rw [Int.neg_tdiv] at h2
  omega

theorem timeoutCycles_bounds (timeout : Int) (hq : 1 ≤ timeout.tdiv 10) :
    timeout < (timeoutCycles timeout : Int) * timeout.tdiv 10 ∧
    (timeoutCycles timeout : Int) * timeout.tdiv 10 ≤ timeout + timeout.tdiv 10 ∧
    ∀ k : Nat, k < timeoutCycles timeout → (k : Int) * timeout.tdiv 10 ≤ timeout := by
  have hT := timeout_nonneg timeout hq
  have hqpos : 0 < timeout.tdiv 10 := by omega
  have hdiv : 0 ≤ timeout / timeout.tdiv 10 := Int.ediv_nonneg hT (by omega)
  have hcast : (timeoutCycles timeout : Int) = timeout / timeout.tdiv 10 + 1 := by
    simp only [timeoutCycles, Nat.cast_add, Nat.cast_one, Int.toNat_of_nonneg hdiv]
  have hle : timeout / timeout.tdiv 10 * timeout.tdiv 10 ≤ timeout := Int.ediv_mul_le _ (by omega)
  have hlt : timeout < (timeout / timeout.tdiv 10 + 1) * timeout.tdiv 10 := by
    have := Int.lt_ediv_add_one_mul_self timeout hqpos
    linarith
  refine ⟨by rw [hcast]; exact hlt, by rw [hcast]; linarith, ?_⟩
  intro k hk
  have hk2 : (k : Int) ≤ timeout / timeout.tdiv 10 := by
    have : (k : Int) < (timeoutCycles timeout : Int) := by exact_mod_cast hk
    rw [hcast] at this
    omega
  calc (k : Int) * timeout.tdiv 10 ≤ timeout / timeout.tdiv 10 * timeout.tdiv 10 :=
        Int.mul_le_mul_of_nonneg_right hk2 (by omega)
    _ ≤ timeout := hle

theorem steadyTicks_mem (conns : GoMap (Option Conn)) (start : Time) (q : Duration) (n : Nat) :
    ∀ tk ∈ steadyTicks conns start q n, tk.conns = conns ∧ tk.pingErr = none ∧ tk.pong = none := by
  intro tk htk
  simp only [steadyTicks, List.mem_map] at htk
  obtain ⟨k, _, rfl⟩ := htk
  exact ⟨rfl, rfl, rfl⟩

theorem steadyTicks_now (conns : GoMap (Option Conn)) (start : Time) (q : Duration) (n : Nat) :
    ∀ (k : Nat) (tk : Tick), (steadyTicks conns start q n)[k]? = some tk → tk.now = start + ((k : Int) + 1) * q := by
  intro k tk h
  simp only [steadyTicks, List.getElem?_map, Option.map_eq_some'] at h
  obtain ⟨i, hi, rfl⟩ := h
  have hik : i = k := by
    by_cases hk : k < n
    · rw [List.getElem?_range hk] at hi
      exact (Option.some.inj hi).symm
    · rw [List.getElem?_eq_none (by simpa using hk)] at hi
      exact absurd hi (by simp)
  rw [hik]

/-- C8. In `keepAlive` with timeout `T` and probe interval `T/10` (truncating
division, at least one unit), for a connection that stays in the registry,
whose probes all succeed and whose pong handler never runs after the start:
(1) whatever the clock readings, the loop closes the channel at the first
check after a sleep that finds `now - lastAck > T`, having gone through every
earlier cycle without closing; (2) when the check after the `k`-th sleep reads
the clock at `start + k * (T/10)`, that is the check number
`timeoutCycles T`, its elapsed silence `s` satisfies `T < s ≤ T + T/10`, and
the silence at every earlier check is at most `T`. -/
theorem keepAlive_closes_after_timeout (ws : WebsocketServer) (connID : String) (c : Conn) (start : Time)
    (ticks : List Tick)
    (hq : 1 ≤ ws.Timeout.tdiv 10)
    (hc : ws.Connections.load connID = some c)
    (hstay : ∀ tk ∈ ticks, tk.conns.load connID = some c ∧ tk.pingErr = none ∧ tk.pong = none) :
    (∀ j, j < ticks.length →
      (∀ tk, ticks[j]? = some tk → tk.now - start > ws.Timeout) →
      (∀ i tk, i < j → ticks[i]? = some tk → tk.now - start ≤ ws.Timeout) →
      keepAlive ws connID start ticks =
        (Event.setPongHandler c ::
          ((List.replicate (j + 1) (probeCycle c (ws.Timeout.tdiv 10))).flatten ++ [Event.close c]),
          KeepAliveExit.timedOut)) ∧
    ((∀ (k : Nat) (tk : Tick), ticks[k]? = some tk → tk.now = start + ((k : Int) + 1) * ws.Timeout.tdiv 10) →
      timeoutCycles ws.Timeout ≤ ticks.length →
      keepAlive ws connID start ticks =
        (Event.setPongHandler c ::
          ((List.replicate (timeoutCycles ws.Timeout) (probeCycle c (ws.Timeout.tdiv 10))).flatten ++
            [Event.close c]),
          KeepAliveExit.timedOut) ∧
      ws.Timeout < (timeoutCycles ws.Timeout : Int) * ws.Timeout.tdiv 10 ∧
      (timeoutCycles ws.Timeout : Int) * ws.Timeout.tdiv 10 ≤ ws.Timeout + ws.Timeout.tdiv 10 ∧
      ∀ k : Nat, k < timeoutCycles ws.Timeout → (k : Int) * ws.Timeout.tdiv 10 ≤ ws.Timeout) := by
  have hgen : ∀ j, j < ticks.length →
      (∀ tk, ticks[j]? = some tk → tk.now - start > ws.Timeout) →
      (∀ i tk, i < j → ticks[i]? = some tk → tk.now - start ≤ ws.Timeout) →
      keepAlive ws connID start ticks =
        (Event.setPongHandler c ::
          ((List.replicate (j + 1) (probeCycle c (ws.Timeout.tdiv 10))).flatten ++ [Event.close c]),
          KeepAliveExit.timedOut) := by
    intro j hj hgt hle
    have hl := keepAlive_loop_first_timeout ws.Timeout connID c start ticks j hstay hgt hle hj
    simp only [keepAlive, hc, hl]
  refine ⟨hgen, ?_⟩
  intro hclock hlen
  obtain ⟨hb1, hb2, hb3⟩ := timeoutCycles_bounds ws.Timeout hq
  refine ⟨?_, hb1, hb2, hb3⟩
  have hpos : 0 < timeoutCycles ws.Timeout := Nat.succ_pos _
  have hj := hgen (timeoutCycles ws.Timeout - 1) (by omega) ?_ ?_
  · rw [Nat.sub_add_cancel hpos] at hj
    exact hj
  · intro tk htk
    rw [hclock _ tk htk]
    have hcast : ((timeoutCycles ws.Timeout - 1 : Nat) : Int) + 1 = (timeoutCycles ws.Timeout : Int) := by
      omega
    rw [hcast]
    linarith
  · intro i tk hi htk
    rw [hclock _ tk htk]
    have h3 := hb3 (i + 1) (by omega)
    push_cast at h3
    linarith

/-- C8, witness: timeout 1000 ms, probe interval 100 ms.  The channel is
closed at the eleventh check, after 1100 ms of silence; the tenth check, at
1000 ms, does not close it. -/
theorem keepAlive_closes_after_timeout_witness :
    timeoutCycles 1000000000 = 11 ∧
    keepAlive { freshServer with Connections := GoMap.mk [("id-1", some 7)] } "id-1" 5
        (steadyTicks (GoMap.mk [("id-1", some 7)]) 5 100000000 12) =
      (Event.setPongHandler 7 ::
        ((List.replicate 11 (probeCycle 7 100000000)).flatten ++ [Event.close 7]),
        KeepAliveExit.timedOut) ∧
    (1000000000 : Int) < 11 * 100000000 ∧ ((10 : Nat) : Int) * 100000000 ≤ 1000000000 :=
  ⟨by decide,
   ((keepAlive_closes_after_timeout { freshServer with Connections := GoMap.mk [("id-1", some 7)] } "id-1" 7 5
      (steadyTicks (GoMap.mk [("id-1", some 7)]) 5 100000000 12) (by decide) (by decide)
      (fun tk htk => by
        obtain ⟨h1, h2, h3⟩ := steadyTicks_mem _ _ _ _ tk htk
        exact ⟨by rw [h1]; decide, h2, h3⟩)).2
      (steadyTicks_now _ _ _ _) (by decide)).1,
   by decide,
   ((keepAlive_closes_after_timeout { freshServer with Connections := GoMap.mk [("id-1", some 7)] } "id-1" 7 5
      (steadyTicks (GoMap.mk [("id-1", some 7)]) 5 100000000 12) (by decide) (by decide)
      (fun tk htk => by
        obtain ⟨h1, h2, h3⟩ := steadyTicks_mem _ _ _ _ tk htk
        exact ⟨by rw [h1]; decide, h2, h3⟩)).2
      (steadyTicks_now _ _ _ _) (by decide)).2.2.2 10 (by decide)⟩

end Middlewares
